import Mathlib

/-!
Shallow embedding of the `nonvolatile` crate (src/lib.rs): a durable
key-value persistence layer with a lock-file exclusivity protocol and an
atomic (temp-file-then-rename) manifest store.

The filesystem is modelled as a partial map from path strings to nodes
(`file contents` or `dir`).  Fallible filesystem operations return
`Except String _`; best-effort operations (`let _ = remove_file(...)` in
the source) are total.  Nondeterministic IO failures (write errors) are
resolved by an explicit `IOEnv` of booleans, and interference by other
processes during the lock-acquisition sleep is modelled by an explicit
`interf : FS → FS` step applied at the sleep point.  Serialization
(`serde_yaml`) is a parameter: an encoder `menc : State → String` and
decoder `mdec : String → Option State`, mirroring the spec's statement
that any encoding is acceptable as long as it round-trips.
-/

namespace Nonvolatile

/-- A filesystem node: a regular file with string contents, or a directory. -/
inductive FsNode where
  | file (contents : String) : FsNode
  | dir : FsNode
deriving DecidableEq, Repr

/-- A filesystem: partial map from paths to nodes. -/
def FS : Type := String → Option FsNode

/-- Point update of a filesystem. -/
def FS.update (fs : FS) (p : String) (n : Option FsNode) : FS :=
  fun q => if q = p then n else fs q

/-- The empty filesystem. -/
def fsEmpty : FS := fun _ => none

/-- Whether path `q` equals `base` or lies strictly under directory `base`. -/
def isUnder (q base : String) : Bool :=
  q = base || (base ++ "/").data.isPrefixOf q.data

/-- Resolution of the nondeterministic IO failures (`write!` etc.) that the
source handles with `?` but that depend on the outside world. -/
structure IOEnv where
  lockWriteOk : Bool
  tmpWriteOk : Bool
  renameOk : Bool
  copyOk : Bool
deriving DecidableEq, Repr

/-- All IO operations succeed. -/
def envOk : IOEnv := ⟨true, true, true, true⟩

/-- Best-effort `let _ = remove_file(path)`: removes a regular file, leaves
directories and missing paths untouched (the error is discarded). -/
def removeFileQuiet (fs : FS) (p : String) : FS :=
  match fs p with
  | some (FsNode.file _) => fs.update p none
  | _ => fs

/-- `std::fs::remove_file(path)` with its error surfaced: fails on a
directory or a missing path. -/
def removeFileStrict (fs : FS) (p : String) : Except String FS :=
  match fs p with
  | some (FsNode.file _) => Except.ok (fs.update p none)
  | some FsNode.dir => Except.error ("remove_file " ++ p ++ ": is a directory")
  | none => Except.error ("remove_file " ++ p ++ ": no such file or directory")

/-- `std::fs::remove_dir_all(path)`: recursively removes a directory tree;
fails on a missing path or a non-directory. -/
def removeDirAll (fs : FS) (p : String) : Except String FS :=
  match fs p with
  | some FsNode.dir => Except.ok (fun q => if isUnder q p then none else fs q)
  | some (FsNode.file _) => Except.error ("remove_dir_all " ++ p ++ ": not a directory")
  | none => Except.error ("remove_dir_all " ++ p ++ ": no such file or directory")

/-- `OpenOptions::new().write(true).create(true).open(path)`: fails if a
directory sits at `path`; creates an empty file if nothing does; opens the
existing file (without truncating it) otherwise. -/
def openWriteCreate (fs : FS) (p : String) : Except String FS :=
  match fs p with
  | some FsNode.dir => Except.error ("open " ++ p ++ ": is a directory")
  | some (FsNode.file _) => Except.ok fs
  | none => Except.ok (fs.update p (some (FsNode.file "")))

/-- Writing `data` at position 0 of a just-opened file (no truncation: bytes
of the previous contents beyond `data.length` survive). -/
def writeAt0 (fs : FS) (p : String) (data : String) : FS :=
  match fs p with
  | some (FsNode.file old) => fs.update p (some (FsNode.file (data ++ old.drop data.length)))
  | _ => fs.update p (some (FsNode.file data))

/-- `std::fs::rename(src, dst)`: moves the node at `src` to `dst`,
atomically replacing a regular file at `dst`; fails if `src` is missing or
a directory sits at `dst`. -/
def renameNode (fs : FS) (src dst : String) : Except String FS :=
  match fs src with
  | none => Except.error ("rename " ++ src ++ ": no such file or directory")
  | some n =>
    match fs dst with
    | some FsNode.dir => Except.error ("rename " ++ dst ++ ": destination is a directory")
    | _ => Except.ok ((fs.update src none).update dst (some n))

/-- `std::fs::copy(src, dst)`: copies a regular file's contents; fails if
`src` is not a regular file or a directory sits at `dst`. -/
def copyFileOp (fs : FS) (src dst : String) : Except String FS :=
  match fs src with
  | some (FsNode.file c) =>
    match fs dst with
    | some FsNode.dir => Except.error ("copy " ++ dst ++ ": destination is a directory")
    | _ => Except.ok (fs.update dst (some (FsNode.file c)))
  | _ => Except.error ("copy " ++ src ++ ": source is not a regular file")

/-- `fs_util::copy_dir(src, dst)`: recursive directory copy; every path at
or under `dst` afterwards mirrors the corresponding path at or under `src`. -/
def copyDirOp (fs : FS) (src dst : String) : FS :=
  fun q => if isUnder q dst then fs (src ++ q.drop dst.length) else fs q

/-- The `WhoOwns` enum of src/lib.rs. -/
inductive WhoOwns where
  | Me : WhoOwns
  | Other : WhoOwns
  | Nobody : WhoOwns
deriving DecidableEq, Repr

/-- Splitting a list of characters at every newline (the semantics of Rust
`str::split("\n")`): `n` separators yield `n + 1` fields. -/
def splitNlChars : List Char → List (List Char)
  | [] => [[]]
  | c :: rest =>
    if c = '\n' then [] :: splitNlChars rest
    else
      match splitNlChars rest with
      | [] => [[c]]
      | h :: t => (c :: h) :: t

/-- Rust `str::split("\n").collect::<Vec<_>>()`. -/
def splitNl (s : String) : List String :=
  (splitNlChars s.data).map List.asString

/-- Rust `str::parse::<u32>()`: an optional leading `+`, then one or more
decimal digits, and the value must fit in 32 bits. -/
def parseU32 (s : String) : Option Nat :=
  let cs := match s.data with
    | '+' :: rest => rest
    | cs => cs
  if cs = [] then none
  else if cs.all (fun c => c.isDigit) then
    let n := cs.foldl (fun acc c => acc * 10 + (c.toNat - 48)) 0
    if n < 4294967296 then some n else none
  else none

/-- Rust `i32 as u32`: two's-complement reinterpretation of a process id. -/
def castU32 (i : Int) : Nat := (i % 4294967296).toNat

/-- The live process table, as `sysinfo` reports it: a list of
`(pid, executable path)` entries (pids are `i32`). -/
abbrev ProcTable : Type := List (Int × String)

/-- `match_state_id` from src/lib.rs (the Liveness Oracle): byte-identical
tokens are mine; a stored token that does not split into exactly three
newline-delimited fields, or whose pid field does not parse as a `u32`, is
nobody's; a live process with the stored pid and executable path makes it
someone else's; otherwise it is nobody's. -/
def match_state_id (procs : ProcTable) (my_id read_id : String) : WhoOwns :=
  if my_id = read_id then WhoOwns.Me
  else
    match splitNl read_id with
    | [p0, _, p2] =>
      match parseU32 p0 with
      | none => WhoOwns.Nobody
      | some read_pid =>
        if procs.any (fun pr => castU32 pr.1 = read_pid ∧ pr.2 = p2) then WhoOwns.Other
        else WhoOwns.Nobody
    | _ => WhoOwns.Nobody

/-- `get_lock_acquired` from src/lib.rs: a missing or non-file lock path
reads as not-acquired; otherwise the stored token is matched against ours,
`Me` meaning acquired, `Other` an error, `Nobody` not-acquired. -/
def get_lock_acquired (procs : ProcTable) (fs : FS) (lockfile_path state_id : String) :
    Except String Bool :=
  match fs lockfile_path with
  | none => Except.ok false
  | some FsNode.dir => Except.ok false
  | some (FsNode.file read_id) =>
    match match_state_id procs state_id read_id with
    | WhoOwns.Me => Except.ok true
    | WhoOwns.Other =>
      Except.error ("lockfile " ++ lockfile_path ++ " already owned by state " ++ read_id)
    | WhoOwns.Nobody => Except.ok false

/-- The internal-invariant error message of `acquire_dir`. -/
def acquireInvariantMsg : String :=
  "Nobody owns the lock, but I still managed to fail to acquire it!"

/-- `acquire_dir` from src/lib.rs (the Lock Manager's acquire): check
ownership; `Me` succeeds with no write, `Other` propagates the contention
error, `Nobody` deletes any stale lock file, writes our token to a fresh
lock file (so the written contents are exactly `state_id`), sleeps (where
`interf` may act), and re-verifies ownership. -/
def acquire_dir (procs : ProcTable) (interf : FS → FS) (env : IOEnv) (fs : FS)
    (lockfile_path state_id : String) : FS × Except String Unit :=
  match get_lock_acquired procs fs lockfile_path state_id with
  | Except.error e => (fs, Except.error e)
  | Except.ok true => (fs, Except.ok ())
  | Except.ok false =>
    let fs1 := removeFileQuiet fs lockfile_path
    match openWriteCreate fs1 lockfile_path with
    | Except.error e => (fs1, Except.error e)
    | Except.ok fs2 =>
      if env.lockWriteOk then
        let fs3 := fs2.update lockfile_path (some (FsNode.file state_id))
        let fs4 := interf fs3
        match get_lock_acquired procs fs4 lockfile_path state_id with
        | Except.ok true => (fs4, Except.ok ())
        | Except.ok false => (fs4, Except.error acquireInvariantMsg)
        | Except.error e => (fs4, Except.error e)
      else
        (removeFileQuiet fs2 lockfile_path, Except.error "write to lockfile failed")

/-- Association-list model of `std::collections::HashMap<String, String>`. -/
abbrev AList : Type := List (String × String)

/-- `HashMap::get`. -/
def alGet (l : AList) (k : String) : Option String :=
  (l.find? (fun p => p.1 = k)).map Prod.snd

/-- `HashMap::contains_key`. -/
def alContains (l : AList) (k : String) : Bool :=
  l.any (fun p => p.1 = k)

/-- `HashMap::insert` (replaces any previous binding of the key). -/
def alInsert (l : AList) (k v : String) : AList :=
  (k, v) :: l.filter (fun p => ¬ p.1 = k)

/-- `HashMap::remove`. -/
def alRemove (l : AList) (k : String) : AList :=
  l.filter (fun p => ¬ p.1 = k)

/-- The `State` struct of src/lib.rs. -/
structure State where
  name : String
  path : String
  identifier : String
  lockfile_path : String
  manifest_path : String
  tmp_manifest_path : String
  items : AList
  preserved : AList
deriving DecidableEq, Repr

/-- The contents the temp manifest file holds after `write_manifest`'s
`file.write(&data)`: the serialized state, followed by any surviving bytes
of a pre-existing temp file (the open does not truncate). -/
def tmpContent (menc : State → String) (fs : FS) (st : State) : String :=
  let data := menc st
  match fs st.tmp_manifest_path with
  | some (FsNode.file old) => data ++ old.drop data.length
  | _ => data

/-- `State::write_manifest` from src/lib.rs (the Manifest Store's write):
open the temp manifest path, serialize the whole state, write it there,
then rename the temp file onto the live manifest path. -/
def State.write_manifest (menc : State → String) (env : IOEnv) (fs : FS) (st : State) :
    FS × Except String Unit :=
  match openWriteCreate fs st.tmp_manifest_path with
  | Except.error e => (fs, Except.error e)
  | Except.ok fs1 =>
    if env.tmpWriteOk then
      let fs2 := writeAt0 fs1 st.tmp_manifest_path (menc st)
      if env.renameOk then
        match renameNode fs2 st.tmp_manifest_path st.manifest_path with
        | Except.error e => (fs2, Except.error e)
        | Except.ok fs3 => (fs3, Except.ok ())
      else (fs2, Except.error "write to temp manifest failed late")
    else (fs1, Except.error "write to temp manifest failed")

/-- The error message of `State::set` on a preserved-name collision. -/
def setCollisionMsg : String :=
  "nonvolatile: can't set a variable with the same name as a preserved file/folder"

/-- `State::set` from src/lib.rs, over an already-serialized value: refuse
names bound in `preserved`; otherwise insert into `items` and persist the
manifest. -/
def State.set (menc : State → String) (env : IOEnv) (fs : FS) (st : State)
    (var sval : String) : FS × State × Except String Unit :=
  if alContains st.preserved var then (fs, st, Except.error setCollisionMsg)
  else
    let st' := { st with items := alInsert st.items var sval }
    let r := State.write_manifest menc env fs st'
    (r.1, st', r.2)

/-- `State::get` from src/lib.rs: look the name up in `items` and decode;
a decode failure reads as absent. -/
def State.get {T : Type} (dec : String → Option T) (st : State) (var : String) : Option T :=
  match alGet st.items var with
  | none => none
  | some item => dec item

/-- `State::has` from src/lib.rs. -/
def State.has (st : State) (item : String) : Bool :=
  alContains st.items item || alContains st.preserved item

/-- `State::delete` from src/lib.rs: always remove the name from `items`
and `preserved`; when it was preserved, also `remove_file(path)?` then
`remove_dir_all(path)?` on the stored copy, and finally persist the
manifest. -/
def State.delete (menc : State → String) (env : IOEnv) (fs : FS) (st : State)
    (name : String) : FS × State × Except String Unit :=
  let hadPreserved := alContains st.preserved name
  let st' := { st with items := alRemove st.items name,
                       preserved := alRemove st.preserved name }
  if hadPreserved then
    let path := st.path ++ "/" ++ name
    match removeFileStrict fs path with
    | Except.error e => (fs, st', Except.error e)
    | Except.ok fs1 =>
      match removeDirAll fs1 path with
      | Except.error e => (fs1, st', Except.error e)
      | Except.ok fs2 =>
        let r := State.write_manifest menc env fs2 st'
        (r.1, st', r.2)
  else
    let r := State.write_manifest menc env fs st'
    (r.1, st', r.2)

/-- Second half of `State::_preserve`, after the copy into the staging
location succeeded: record the name in `preserved`, persist the manifest,
then rename the staged copy into its final place. -/
def preserveFinish (menc : State → String) (env : IOEnv) (fs1 : FS) (st : State)
    (cpath name : String) : FS × State × Except String Unit :=
  let tmp_dest := st.path ++ "/" ++ ("tmp_" ++ name)
  let dest := st.path ++ "/" ++ name
  let st' := { st with preserved := alInsert st.preserved name cpath }
  let r := State.write_manifest menc env fs1 st'
  match r.2 with
  | Except.error e => (r.1, st', Except.error e)
  | Except.ok _ =>
    match renameNode r.1 tmp_dest dest with
    | Except.error e => (r.1, st', Except.error e)
    | Except.ok fs3 => (fs3, st', Except.ok ())

/-- `State::_preserve` from src/lib.rs: refuse names bound in `items`;
canonicalize the source path (`canon` models `std::fs::canonicalize`);
copy the source (recursively for a directory) to a staging name inside the
bundle; then record, persist and rename via `preserveFinish`. -/
def State._preserve (menc : State → String) (canon : String → Option String)
    (env : IOEnv) (fs : FS) (st : State) (path name : String) :
    FS × State × Except String Unit :=
  if alContains st.items name then
    (fs, st, Except.error "nonvolatile: can't preserve a file with the same name as a set variable")
  else
    match canon path with
    | none => (fs, st, Except.error "nonvolatile preserve: failed to canonicalize path")
    | some cpath =>
      let tmp_dest := st.path ++ "/" ++ ("tmp_" ++ name)
      match fs cpath with
      | none => (fs, st, Except.error ("metadata " ++ cpath ++ ": no such file or directory"))
      | some FsNode.dir =>
        if env.copyOk then
          preserveFinish menc env (copyDirOp fs cpath tmp_dest) st cpath name
        else (fs, st, Except.error "copy_dir failed")
      | some (FsNode.file _) =>
        if env.copyOk then
          match copyFileOp fs cpath tmp_dest with
          | Except.error e => (fs, st, Except.error e)
          | Except.ok fs1 => preserveFinish menc env fs1 st cpath name
        else (fs, st, Except.error "copy failed")

/-- The error message of `_restore` / `_restore_to` for an unregistered name. -/
def restoreMissingMsg (name : String) : String :=
  "Nothing by the name " ++ name ++ " has been preserved"

/-- `State::_restore_to` from src/lib.rs: refuse unregistered names;
otherwise copy the bundle's stored copy (directory-recursively when it is
a directory) to the destination path.  The state is returned unchanged
(`&self` in the source). -/
def State._restore_to (fs : FS) (st : State) (name path : String) :
    FS × State × Except String Unit :=
  if alContains st.preserved name then
    let preserved_path := st.path ++ "/" ++ name
    match fs preserved_path with
    | none => (fs, st, Except.error ("metadata " ++ preserved_path ++ ": no such file or directory"))
    | some FsNode.dir => (copyDirOp fs preserved_path path, st, Except.ok ())
    | some (FsNode.file c) =>
      match fs path with
      | some FsNode.dir => (fs, st, Except.error ("copy " ++ path ++ ": destination is a directory"))
      | _ => (fs.update path (some (FsNode.file c)), st, Except.ok ())
  else (fs, st, Except.error (restoreMissingMsg name))

/-- `State::_restore` from src/lib.rs: look the registered source path up
in `preserved` and restore to it. -/
def State._restore (fs : FS) (st : State) (name : String) :
    FS × State × Except String Unit :=
  match alGet st.preserved name with
  | none => (fs, st, Except.error (restoreMissingMsg name))
  | some p => State._restore_to fs st name p

/-- The `Drop` impl of `State`: best-effort removal of the lock file. -/
def State.dropLock (fs : FS) (st : State) : FS :=
  removeFileQuiet fs st.lockfile_path

/-- `State::load_from` from src/lib.rs: recompute the bundle directory,
manifest path and lock path from `storage_path` and `name`; generate a
fresh identity (`state_id` models `get_state_id()`); acquire the lock;
read and deserialize the manifest; then overwrite only the `identifier`
and `lockfile_path` fields of the deserialized state. -/
def State.load_from (mdec : String → Option State) (procs : ProcTable)
    (interf : FS → FS) (env : IOEnv) (fs : FS)
    (state_id name storage_path : String) : FS × Except String State :=
  let path := storage_path ++ "/" ++ name
  let manifest_path := path ++ "/" ++ ".manifest"
  let lockfile_path := path ++ "/" ++ "~rust_nonvolatile.lock"
  let a := acquire_dir procs interf env fs lockfile_path state_id
  match a.2 with
  | Except.error e => (a.1, Except.error e)
  | Except.ok _ =>
    match a.1 manifest_path with
    | some (FsNode.file data) =>
      match mdec data with
      | some st0 =>
        (a.1, Except.ok { st0 with identifier := state_id, lockfile_path := lockfile_path })
      | none =>
        (removeFileQuiet a.1 lockfile_path, Except.error "manifest failed to deserialize")
    | _ =>
      (removeFileQuiet a.1 lockfile_path, Except.error "failed to read manifest")

theorem FS.update_self (fs : FS) (p : String) (n : Option FsNode) :
    fs.update p n p = n := by
  simp [FS.update]

theorem FS.update_other (fs : FS) {p q : String} (n : Option FsNode) (h : q ≠ p) :
    fs.update p n q = fs q := by
  simp [FS.update, h]

theorem FS.update_update_self (fs : FS) (p : String) (m n : Option FsNode) :
    (fs.update p m).update p n = fs.update p n := by
  funext q
  by_cases h : q = p <;> simp [FS.update, h]

theorem match_state_id_default (procs : ProcTable) {my_id read_id : String}
    (h : my_id ≠ read_id) (hlen : (splitNl read_id).length ≠ 3) :
    match_state_id procs my_id read_id = WhoOwns.Nobody := by
  unfold match_state_id
  rw [if_neg h]
  rcases hs : splitNl read_id with _ | ⟨a, _ | ⟨b, _ | ⟨c, _ | ⟨d, tl⟩⟩⟩⟩
  · rfl
  · rfl
  · rfl
  · rw [hs] at hlen
    exact absurd rfl hlen
  · rfl

theorem match_state_id_parts (procs : ProcTable) {my_id read_id : String}
    (h : my_id ≠ read_id) {p0 p1 p2 : String} (hs : splitNl read_id = [p0, p1, p2]) :
    match_state_id procs my_id read_id =
      (match parseU32 p0 with
       | none => WhoOwns.Nobody
       | some read_pid =>
         if (List.any procs fun pr => castU32 pr.1 = read_pid ∧ pr.2 = p2) then
           WhoOwns.Other
         else WhoOwns.Nobody) := by
  unfold match_state_id
  rw [if_neg h, hs]

theorem match_ne_me (procs : ProcTable) {my_id read_id : String} (h : my_id ≠ read_id) :
    match_state_id procs my_id read_id ≠ WhoOwns.Me := by
  by_cases hlen : (splitNl read_id).length = 3
  · rcases hs : splitNl read_id with _ | ⟨a, _ | ⟨b, _ | ⟨c, _ | ⟨d, tl⟩⟩⟩⟩ <;>
      rw [hs] at hlen <;> try simp at hlen
    rw [match_state_id_parts procs h hs]
    cases hp : parseU32 a with
    | none => simp
    | some n =>
      show (if (List.any procs fun pr => castU32 pr.1 = n ∧ pr.2 = c) then
          WhoOwns.Other else WhoOwns.Nobody) ≠ WhoOwns.Me
      by_cases hb : (List.any procs fun pr => castU32 pr.1 = n ∧ pr.2 = c) = true
      · rw [hb]
        decide
      · rw [Bool.not_eq_true] at hb
        rw [hb]
        decide
  · rw [match_state_id_default procs h hlen]
    simp

/-- C2: the ownership check returns `OwnedByMe` exactly when the caller's
token and the stored token are byte-identical; on non-identical tokens it
returns `Unowned` when the stored token does not split into exactly three
newline-delimited fields or when its pid field does not parse as an
integer; it returns `OwnedByOther` when some entry of the live process
table carries both the stored pid and the stored executable path; and it
returns `Unowned` otherwise. -/
theorem claim_C2_match_state_id (procs : ProcTable) (my_id read_id : String) :
    (match_state_id procs my_id read_id = WhoOwns.Me ↔ my_id = read_id) ∧
    (my_id ≠ read_id → (splitNl read_id).length ≠ 3 →
      match_state_id procs my_id read_id = WhoOwns.Nobody) ∧
    (my_id ≠ read_id → ∀ p0 p1 p2, splitNl read_id = [p0, p1, p2] →
      (parseU32 p0 = none → match_state_id procs my_id read_id = WhoOwns.Nobody) ∧
      (∀ n, parseU32 p0 = some n →
        ((∃ pr ∈ procs, castU32 pr.1 = n ∧ pr.2 = p2) →
          match_state_id procs my_id read_id = WhoOwns.Other) ∧
        ((¬ ∃ pr ∈ procs, castU32 pr.1 = n ∧ pr.2 = p2) →
          match_state_id procs my_id read_id = WhoOwns.Nobody))) := by
  by_cases heq : my_id = read_id
  · subst heq
    simp [match_state_id]
  · refine ⟨⟨fun h => absurd h (match_ne_me procs heq), fun h => absurd h heq⟩, ?_, ?_⟩
    · intro _ hlen
      exact match_state_id_default procs heq hlen
    · intro _ p0 p1 p2 hs
      rw [match_state_id_parts procs heq hs]
      constructor
      · intro hp
        rw [hp]
      · intro n hp
        rw [hp]
        constructor
        · intro hex
          have ha : (List.any procs fun pr => castU32 pr.1 = n ∧ pr.2 = p2) = true := by
            rcases hex with ⟨pr, hmem, h1, h2⟩
            exact List.any_eq_true.mpr ⟨pr, hmem, by simp [h1, h2]⟩
          show (if (List.any procs fun pr => castU32 pr.1 = n ∧ pr.2 = p2) then
              WhoOwns.Other else WhoOwns.Nobody) = WhoOwns.Other
          rw [ha]
          decide
        · intro hex
          have ha : (List.any procs fun pr => castU32 pr.1 = n ∧ pr.2 = p2) = false := by
            cases hb : List.any procs fun pr => castU32 pr.1 = n ∧ pr.2 = p2
            · rfl
            · rcases List.any_eq_true.mp hb with ⟨pr, hmem, hdec⟩
              exact absurd ⟨pr, hmem, of_decide_eq_true hdec⟩ hex
          show (if (List.any procs fun pr => castU32 pr.1 = n ∧ pr.2 = p2) then
              WhoOwns.Other else WhoOwns.Nobody) = WhoOwns.Nobody
          rw [ha]
          decide

theorem write_manifest_master (menc : State → String) (env : IOEnv) (fs : FS) (st : State)
    (hne : st.tmp_manifest_path ≠ st.manifest_path) :
    (State.write_manifest menc env fs st =
       ((fs.update st.tmp_manifest_path none).update st.manifest_path
          (some (FsNode.file (tmpContent menc fs st))), Except.ok ())) ∨
    ((env.tmpWriteOk = false ∨ env.renameOk = false ∨
        fs st.tmp_manifest_path = some FsNode.dir ∨ fs st.manifest_path = some FsNode.dir) ∧
     (∃ e, (State.write_manifest menc env fs st).2 = Except.error e) ∧
     (State.write_manifest menc env fs st).1 st.manifest_path = fs st.manifest_path ∧
     ∀ p, p ≠ st.manifest_path → p ≠ st.tmp_manifest_path →
       (State.write_manifest menc env fs st).1 p = fs p) := by
  have hmn : st.manifest_path ≠ st.tmp_manifest_path := Ne.symm hne
  cases hfs : fs st.tmp_manifest_path with
  | some node =>
    cases node with
    | dir =>
      refine Or.inr ⟨Or.inr (Or.inr (Or.inl rfl)),
        ⟨"open " ++ st.tmp_manifest_path ++ ": is a directory", ?_⟩, ?_, fun p hp1 hp2 => ?_⟩
      · simp [State.write_manifest, openWriteCreate, hfs]
      · simp [State.write_manifest, openWriteCreate, hfs]
      · simp [State.write_manifest, openWriteCreate, hfs]
    | file old =>
      cases h1 : env.tmpWriteOk with
      | false =>
        refine Or.inr ⟨Or.inl rfl, ⟨"write to temp manifest failed", ?_⟩, ?_,
          fun p hp1 hp2 => ?_⟩
        · simp [State.write_manifest, openWriteCreate, hfs, h1]
        · simp [State.write_manifest, openWriteCreate, hfs, h1]
        · simp [State.write_manifest, openWriteCreate, hfs, h1]
      | true =>
        cases h2 : env.renameOk with
        | false =>
          refine Or.inr ⟨Or.inr (Or.inl rfl), ⟨"write to temp manifest failed late", ?_⟩, ?_,
            fun p hp1 hp2 => ?_⟩
          · simp [State.write_manifest, openWriteCreate, writeAt0, hfs, h1, h2]
          · simp [State.write_manifest, openWriteCreate, writeAt0, hfs, h1, h2,
                  FS.update_other, hmn]
          · simp [State.write_manifest, openWriteCreate, writeAt0, hfs, h1, h2,
                  FS.update_other, hp2]
        | true =>
          cases hm : fs st.manifest_path with
          | none =>
            refine Or.inl ?_
            simp [State.write_manifest, openWriteCreate, writeAt0, renameNode, tmpContent,
                  hfs, h1, h2, hm, FS.update_self, FS.update_other, FS.update_update_self, hmn, hne]
          | some mnode =>
            cases mnode with
            | dir =>
              refine Or.inr ⟨Or.inr (Or.inr (Or.inr rfl)),
                ⟨"rename " ++ st.manifest_path ++ ": destination is a directory", ?_⟩, ?_,
                fun p hp1 hp2 => ?_⟩
              · simp [State.write_manifest, openWriteCreate, writeAt0, renameNode, hfs, h1, h2, hm,
                      FS.update_self, FS.update_other, hmn]
              · simp [State.write_manifest, openWriteCreate, writeAt0, renameNode, hfs, h1, h2, hm,
                      FS.update_self, FS.update_other, hmn]
              · simp [State.write_manifest, openWriteCreate, writeAt0, renameNode, hfs, h1, h2, hm,
                      FS.update_self, FS.update_other, hmn, hp2]
            | file mc =>
              refine Or.inl ?_
              simp [State.write_manifest, openWriteCreate, writeAt0, renameNode, tmpContent,
                    hfs, h1, h2, hm, FS.update_self, FS.update_other, FS.update_update_self, hmn, hne]
  | none =>
    cases h1 : env.tmpWriteOk with
    | false =>
      refine Or.inr ⟨Or.inl rfl, ⟨"write to temp manifest failed", ?_⟩, ?_,
        fun p hp1 hp2 => ?_⟩
      · simp [State.write_manifest, openWriteCreate, hfs, h1]
      · simp [State.write_manifest, openWriteCreate, hfs, h1, FS.update_other, hmn]
      · simp [State.write_manifest, openWriteCreate, hfs, h1, FS.update_other, hp2]
    | true =>
      cases h2 : env.renameOk with
      | false =>
        refine Or.inr ⟨Or.inr (Or.inl rfl), ⟨"write to temp manifest failed late", ?_⟩, ?_,
          fun p hp1 hp2 => ?_⟩
        · simp [State.write_manifest, openWriteCreate, writeAt0, hfs, h1, h2]
        · simp [State.write_manifest, openWriteCreate, writeAt0, hfs, h1, h2,
                FS.update_self, FS.update_other, FS.update_update_self, hmn]
        · simp [State.write_manifest, openWriteCreate, writeAt0, hfs, h1, h2,
                FS.update_self, FS.update_other, FS.update_update_self, hp2]
      | true =>
        cases hm : fs st.manifest_path with
        | none =>
          refine Or.inl ?_
          simp [State.write_manifest, openWriteCreate, writeAt0, renameNode, tmpContent,
                hfs, h1, h2, hm, FS.update_self, FS.update_other, FS.update_update_self, hmn, hne]
        | some mnode =>
          cases mnode with
          | dir =>
            refine Or.inr ⟨Or.inr (Or.inr (Or.inr rfl)),
              ⟨"rename " ++ st.manifest_path ++ ": destination is a directory", ?_⟩, ?_,
              fun p hp1 hp2 => ?_⟩
            · simp [State.write_manifest, openWriteCreate, writeAt0, renameNode, hfs, h1, h2, hm,
                    FS.update_self, FS.update_other, FS.update_update_self, hmn]
            · simp [State.write_manifest, openWriteCreate, writeAt0, renameNode, hfs, h1, h2, hm,
                    FS.update_self, FS.update_other, FS.update_update_self, hmn]
            · simp [State.write_manifest, openWriteCreate, writeAt0, renameNode, hfs, h1, h2, hm,
                    FS.update_self, FS.update_other, FS.update_update_self, hmn, hp2]
          | file mc =>
            refine Or.inl ?_
            simp [State.write_manifest, openWriteCreate, writeAt0, renameNode, tmpContent,
                  hfs, h1, h2, hm, FS.update_self, FS.update_other, FS.update_update_self, hmn, hne]

theorem write_manifest_ok (menc : State → String) (env : IOEnv) (fs : FS) (st : State)
    (h1 : env.tmpWriteOk = true) (h2 : env.renameOk = true)
    (hne : st.tmp_manifest_path ≠ st.manifest_path)
    (htd : fs st.tmp_manifest_path ≠ some FsNode.dir)
    (hmd : fs st.manifest_path ≠ some FsNode.dir) :
    State.write_manifest menc env fs st =
      ((fs.update st.tmp_manifest_path none).update st.manifest_path
        (some (FsNode.file (tmpContent menc fs st))), Except.ok ()) := by
  rcases write_manifest_master menc env fs st hne with h | ⟨hc, _, _, _⟩
  · exact h
  · rcases hc with hc | hc | hc | hc
    · rw [h1] at hc
      cases hc
    · rw [h2] at hc
      cases hc
    · exact absurd hc htd
    · exact absurd hc hmd

/-- C3: the manifest write serializes the whole state only to the temp
manifest path and installs it at the live manifest path solely via a
rename of the temp file: on any error the live manifest is unchanged, on
success the live manifest holds exactly the bytes of the temp file (which
is gone afterwards), and no other path is ever written. -/
theorem claim_C3_write_manifest_atomic (menc : State → String) (env : IOEnv) (fs : FS)
    (st : State) (hne : st.tmp_manifest_path ≠ st.manifest_path) :
    (∀ e, (State.write_manifest menc env fs st).2 = Except.error e →
      (State.write_manifest menc env fs st).1 st.manifest_path = fs st.manifest_path) ∧
    ((State.write_manifest menc env fs st).2 = Except.ok () →
      (State.write_manifest menc env fs st).1 st.manifest_path =
        some (FsNode.file (tmpContent menc fs st)) ∧
      (State.write_manifest menc env fs st).1 st.tmp_manifest_path = none) ∧
    (∀ p, p ≠ st.manifest_path → p ≠ st.tmp_manifest_path →
      (State.write_manifest menc env fs st).1 p = fs p) := by
  rcases write_manifest_master menc env fs st hne with h | ⟨_, ⟨e0, he0⟩, hm, hframe⟩
  · refine ⟨?_, ?_, ?_⟩
    · intro e he
      rw [h] at he
      simp at he
    · intro _
      rw [h]
      constructor
      · exact FS.update_self _ _ _
      · show ((fs.update st.tmp_manifest_path none).update st.manifest_path
          (some (FsNode.file (tmpContent menc fs st)))) st.tmp_manifest_path = none
        rw [FS.update_other _ _ hne, FS.update_self]
    · intro p hp1 hp2
      rw [h]
      show ((fs.update st.tmp_manifest_path none).update st.manifest_path
        (some (FsNode.file (tmpContent menc fs st)))) p = fs p
      rw [FS.update_other _ _ hp1, FS.update_other _ _ hp2]
  · refine ⟨fun e _ => hm, ?_, hframe⟩
    intro hok
    rw [hok] at he0
    cases he0

/-- Witness fixture: a bundle state with the standard path layout. -/
def wState : State :=
  { name := "n", path := "r/n", identifier := "1\n2\n/bin/me",
    lockfile_path := "r/n/~rust_nonvolatile.lock", manifest_path := "r/n/.manifest",
    tmp_manifest_path := "r/n/.manifest_tmp", items := [], preserved := [] }

/-- Witness fixture: a constant manifest encoder. -/
def wMenc : State → String := fun _ => "Y"

/-- Witness for C3: on the empty filesystem and an all-ok environment the
manifest write succeeds and installs the serialized state at the live
manifest path. -/
theorem claim_C3_write_manifest_atomic_witness :
    wState.tmp_manifest_path ≠ wState.manifest_path ∧
    (State.write_manifest wMenc envOk fsEmpty wState).2 = Except.ok () ∧
    (State.write_manifest wMenc envOk fsEmpty wState).1 wState.manifest_path =
      some (FsNode.file "Y") :=
  ⟨by decide, rfl,
    ((claim_C3_write_manifest_atomic wMenc envOk fsEmpty wState (by decide)).2.1 rfl).1⟩

theorem match_state_id_self (procs : ProcTable) (s : String) :
    match_state_id procs s s = WhoOwns.Me := by
  unfold match_state_id
  rw [if_pos rfl]

theorem removeFileQuiet_self (fs : FS) (lp : String) (h : fs lp ≠ some FsNode.dir) :
    removeFileQuiet fs lp lp = none := by
  unfold removeFileQuiet
  cases hf : fs lp with
  | none => exact hf
  | some node =>
    cases node with
    | file c => exact FS.update_self _ _ _
    | dir => exact absurd hf h

/-- Counterexample to C1: when, during the sleep before re-verification,
another live process (pid 42, executable "/bin/x") installs its own token
in the lock file, `acquire_dir` returns the lock-contention error of
`get_lock_acquired`, not the internal-invariant error the claim promises
for every re-verification that does not show the caller as owner. -/
theorem claim_C1_counterexample :
    get_lock_acquired [((42 : Int), "/bin/x")] fsEmpty "L" "1\n2\n/bin/me" =
      Except.ok false ∧
    (acquire_dir [((42 : Int), "/bin/x")]
        (fun fs => fs.update "L" (some (FsNode.file "42\n7\n/bin/x")))
        envOk fsEmpty "L" "1\n2\n/bin/me").2 =
      Except.error ("lockfile L already owned by state 42\n7\n/bin/x") ∧
    ("lockfile L already owned by state 42\n7\n/bin/x" ≠ acquireInvariantMsg) :=
  ⟨rfl, rfl, by decide⟩

/-- C1 (amended): lock acquisition succeeds without writing when the
on-disk token is byte-identical to the caller's; it fails with the
contention error, without writing, when the stored token belongs to a live
other process; and when nobody owns the lock it deletes any stale lock
file, writes the caller's token, waits (interference may act), and
re-verifies: it succeeds if the re-check shows the caller as owner,
returns the internal-invariant error if the re-check shows nobody, and
propagates the contention error if the re-check finds a live other
owner. -/
theorem claim_C1_acquire_dir (procs : ProcTable) (interf : FS → FS) (env : IOEnv)
    (fs : FS) (lp sid : String) :
    (fs lp = some (FsNode.file sid) →
      acquire_dir procs interf env fs lp sid = (fs, Except.ok ())) ∧
    (∀ t, fs lp = some (FsNode.file t) → match_state_id procs sid t = WhoOwns.Other →
      acquire_dir procs interf env fs lp sid =
        (fs, Except.error ("lockfile " ++ lp ++ " already owned by state " ++ t))) ∧
    (get_lock_acquired procs fs lp sid = Except.ok false → fs lp ≠ some FsNode.dir →
      env.lockWriteOk = true →
      acquire_dir procs interf env fs lp sid =
        (match get_lock_acquired procs
            (interf ((removeFileQuiet fs lp).update lp (some (FsNode.file sid)))) lp sid with
         | Except.ok true =>
           (interf ((removeFileQuiet fs lp).update lp (some (FsNode.file sid))), Except.ok ())
         | Except.ok false =>
           (interf ((removeFileQuiet fs lp).update lp (some (FsNode.file sid))),
             Except.error acquireInvariantMsg)
         | Except.error e =>
           (interf ((removeFileQuiet fs lp).update lp (some (FsNode.file sid))),
             Except.error e))) := by
  refine ⟨?_, ?_, ?_⟩
  · intro hf
    unfold acquire_dir get_lock_acquired
    rw [hf]
    simp [match_state_id_self]
  · intro t hf ho
    unfold acquire_dir get_lock_acquired
    rw [hf]
    simp [ho]
  · intro hga hnd hw
    unfold acquire_dir
    rw [hga]
    have hopen : openWriteCreate (removeFileQuiet fs lp) lp =
        Except.ok ((removeFileQuiet fs lp).update lp (some (FsNode.file ""))) := by
      unfold openWriteCreate
      rw [removeFileQuiet_self fs lp hnd]
    simp only [hopen, hw, FS.update_update_self, if_true]

/-- Witness for C1 (amended): with no interference, acquiring an absent
lock writes the caller's token and the re-verification sees it, so
acquisition succeeds. -/
theorem claim_C1_acquire_dir_witness :
    get_lock_acquired [] fsEmpty "L" "tok" = Except.ok false ∧
    fsEmpty "L" ≠ some FsNode.dir ∧
    envOk.lockWriteOk = true ∧
    (acquire_dir [] id envOk fsEmpty "L" "tok").2 = Except.ok () ∧
    (acquire_dir [] id envOk fsEmpty "L" "tok").1 "L" = some (FsNode.file "tok") := by
  refine ⟨rfl, by decide, rfl, ?_, ?_⟩ <;>
    rw [(claim_C1_acquire_dir [] id envOk fsEmpty "L" "tok").2.2 rfl (by decide) rfl] <;>
    rfl

theorem alGet_insert_self (l : AList) (k v : String) : alGet (alInsert l k v) k = some v := by
  simp [alGet, alInsert]

theorem alContains_remove_self (l : AList) (k : String) :
    alContains (alRemove l k) k = false := by
  induction l with
  | nil => rfl
  | cons p t ih =>
    by_cases h : p.1 = k <;> simp [alContains, alRemove, h]

/-- C6: `set` on a key naming a preserved entry returns an error and leaves
the filesystem (hence the on-disk manifest) and the in-memory state
untouched; otherwise it upserts the serialized value into `items`, leaves
`preserved` alone, and a success return means the manifest on disk now
holds the serialization of the updated state. -/
theorem claim_C6_set (menc : State → String) (env : IOEnv) (fs : FS) (st : State)
    (var sval : String) :
    (alContains st.preserved var = true →
      State.set menc env fs st var sval = (fs, st, Except.error setCollisionMsg)) ∧
    (alContains st.preserved var = false →
      (State.set menc env fs st var sval).2.1 =
        { st with items := alInsert st.items var sval } ∧
      ((State.set menc env fs st var sval).2.2 = Except.ok () →
        st.tmp_manifest_path ≠ st.manifest_path →
        (State.set menc env fs st var sval).1 st.manifest_path =
          some (FsNode.file
            (tmpContent menc fs { st with items := alInsert st.items var sval })))) := by
  constructor
  · intro hc
    simp [State.set, hc]
  · intro hc
    refine ⟨by simp [State.set, hc], ?_⟩
    intro hok hne
    have hne' : ({ st with items := alInsert st.items var sval } : State).tmp_manifest_path ≠
        ({ st with items := alInsert st.items var sval } : State).manifest_path := hne
    have hok' : (State.write_manifest menc env fs
        { st with items := alInsert st.items var sval }).2 = Except.ok () := by
      simpa [State.set, hc] using hok
    rcases write_manifest_master menc env fs
        { st with items := alInsert st.items var sval } hne' with h | ⟨_, ⟨e0, he0⟩, _, _⟩
    · simp [State.set, hc, h, FS.update_self]
    · rw [hok'] at he0
      cases he0

/-- Witness for C6: setting "k" on a bundle with no preserved entries
succeeds and lands the updated serialization in the manifest. -/
theorem claim_C6_set_witness :
    alContains wState.preserved "k" = false ∧
    (State.set wMenc envOk fsEmpty wState "k" "7").2.2 = Except.ok () ∧
    wState.tmp_manifest_path ≠ wState.manifest_path ∧
    (State.set wMenc envOk fsEmpty wState "k" "7").2.1 =
      { wState with items := alInsert wState.items "k" "7" } ∧
    (State.set wMenc envOk fsEmpty wState "k" "7").1 wState.manifest_path =
      some (FsNode.file "Y") :=
  ⟨rfl, rfl, by decide,
    ((claim_C6_set wMenc envOk fsEmpty wState "k" "7").2 rfl).1,
    ((claim_C6_set wMenc envOk fsEmpty wState "k" "7").2 rfl).2 rfl (by decide)⟩

/-- C10: after `delete` returns — with success or with an error — the key
is absent from both in-memory maps: both removals happen before the
fallible file deletions and the manifest write. -/
theorem claim_C10_delete_removes_from_maps (menc : State → String) (env : IOEnv)
    (fs : FS) (st : State) (name : String) :
    alContains (State.delete menc env fs st name).2.1.items name = false ∧
    alContains (State.delete menc env fs st name).2.1.preserved name = false := by
  constructor <;>
  · unfold State.delete
    dsimp only
    split
    · split
      · simp [alContains_remove_self]
      · split
        · simp [alContains_remove_self]
        · simp [alContains_remove_self]
    · simp [alContains_remove_self]

/-- Witness fixture: a bundle state whose `preserved` map registers "p"
(originally copied from "/orig"). -/
def wStateP : State :=
  { name := "n", path := "r/n", identifier := "1\n2\n/bin/me",
    lockfile_path := "r/n/~rust_nonvolatile.lock", manifest_path := "r/n/.manifest",
    tmp_manifest_path := "r/n/.manifest_tmp", items := [], preserved := [("p", "/orig")] }

/-- Witness fixture: the bundle directory holding the preserved copy (a
regular file) and the committed manifest. -/
def wFsP : FS := fun q =>
  if q = "r/n/p" then some (FsNode.file "DATA")
  else if q = "r/n/.manifest" then some (FsNode.file "OLD") else none

/-- C4 (code bug): deleting the preserved entry "p", whose stored copy is
the regular file r/n/p, removes that file from disk but then returns the
error of `remove_dir_all` on the now-missing path — `remove_file(path)?`
and `remove_dir_all(path)?` can never both succeed — so the manifest write
is skipped, while the claim (and spec §4.5) promise success with the
manifest persisted. -/
theorem claim_C4_delete_preserved_bug :
    alContains wStateP.preserved "p" = true ∧
    (State.delete wMenc envOk wFsP wStateP "p").2.2 =
      Except.error "remove_dir_all r/n/p: no such file or directory" ∧
    (State.delete wMenc envOk wFsP wStateP "p").1 "r/n/.manifest" =
      some (FsNode.file "OLD") ∧
    (State.delete wMenc envOk wFsP wStateP "p").1 "r/n/p" = none :=
  ⟨rfl, rfl, rfl, rfl⟩

theorem alGet_eq_none_iff (l : AList) (k : String) :
    alGet l k = none ↔ alContains l k = false := by
  simp [alGet, alContains, List.find?_eq_none, List.any_eq_false]

theorem restore_to_state_unchanged (fs : FS) (st : State) (name dst : String) :
    (State._restore_to fs st name dst).2.1 = st := by
  unfold State._restore_to
  by_cases hc : alContains st.preserved name = true
  · rw [if_pos hc]
    dsimp only
    cases hpp : fs (st.path ++ "/" ++ name) with
    | none => rfl
    | some node =>
      cases node with
      | dir => rfl
      | file c =>
        cases hd : fs dst with
        | none => rfl
        | some n2 => cases n2 <;> rfl
  · rw [if_neg hc]

theorem restore_to_manifest_unchanged (fs : FS) (st : State) (name dst : String)
    (h : isUnder st.manifest_path dst = false) :
    (State._restore_to fs st name dst).1 st.manifest_path = fs st.manifest_path := by
  have hne : st.manifest_path ≠ dst := by
    intro he
    rw [he] at h
    simp [isUnder] at h
  unfold State._restore_to
  by_cases hc : alContains st.preserved name = true
  · rw [if_pos hc]
    dsimp only
    cases hpp : fs (st.path ++ "/" ++ name) with
    | none => rfl
    | some node =>
      cases node with
      | dir =>
        show copyDirOp fs (st.path ++ "/" ++ name) dst st.manifest_path = fs st.manifest_path
        unfold copyDirOp
        rw [h]
        simp
      | file c =>
        cases hd : fs dst with
        | none => exact FS.update_other _ _ hne
        | some n2 =>
          cases n2 with
          | file c2 => exact FS.update_other _ _ hne
          | dir => rfl
  · rw [if_neg hc]

/-- Counterexample to C9: calling `_restore_to` with the live manifest path
as the destination overwrites the on-disk manifest (here with the
preserved copy's bytes "DATA"), returning success — so a restore is not
read-only with respect to the on-disk manifest for every destination. -/
theorem claim_C9_counterexample :
    alContains wStateP.preserved "p" = true ∧
    (State._restore_to wFsP wStateP "p" "r/n/.manifest").2.2 = Except.ok () ∧
    wFsP "r/n/.manifest" = some (FsNode.file "OLD") ∧
    (State._restore_to wFsP wStateP "p" "r/n/.manifest").1 "r/n/.manifest" =
      some (FsNode.file "DATA") :=
  ⟨rfl, rfl, rfl, rfl⟩

/-- C9 (amended): `_restore` and `_restore_to` return an error, and change
nothing, when the name is not registered in `preserved`; in every case
they return the in-memory state unchanged; and the on-disk manifest is
unchanged provided the manifest path is not at or under the destination
path (for `_restore`, the recorded original source path). -/
theorem claim_C9_restore_readonly (fs : FS) (st : State) (name dst : String) :
    (alContains st.preserved name = false →
      State._restore_to fs st name dst = (fs, st, Except.error (restoreMissingMsg name)) ∧
      State._restore fs st name = (fs, st, Except.error (restoreMissingMsg name))) ∧
    ((State._restore_to fs st name dst).2.1 = st ∧
      (State._restore fs st name).2.1 = st) ∧
    (isUnder st.manifest_path dst = false →
      (State._restore_to fs st name dst).1 st.manifest_path = fs st.manifest_path) ∧
    (∀ p, alGet st.preserved name = some p → isUnder st.manifest_path p = false →
      (State._restore fs st name).1 st.manifest_path = fs st.manifest_path) := by
  refine ⟨?_, ⟨restore_to_state_unchanged fs st name dst, ?_⟩, ?_, ?_⟩
  · intro hc
    constructor
    · simp [State._restore_to, hc]
    · unfold State._restore
      rw [(alGet_eq_none_iff st.preserved name).mpr hc]
  · unfold State._restore
    cases hg : alGet st.preserved name with
    | none => rfl
    | some p => exact restore_to_state_unchanged fs st name p
  · exact restore_to_manifest_unchanged fs st name dst
  · intro p hg hu
    unfold State._restore
    rw [hg]
    exact restore_to_manifest_unchanged fs st name p hu

/-- Witness for C9 (amended): restoring the preserved entry "p" to the
fresh destination "/dest" succeeds, leaves the state unchanged and leaves
the manifest untouched. -/
theorem claim_C9_restore_readonly_witness :
    isUnder wStateP.manifest_path "/dest" = false ∧
    alGet wStateP.preserved "p" = some "/orig" ∧
    isUnder wStateP.manifest_path "/orig" = false ∧
    (State._restore_to wFsP wStateP "p" "/dest").1 wStateP.manifest_path =
      wFsP wStateP.manifest_path ∧
    (State._restore wFsP wStateP "p").2.1 = wStateP :=
  ⟨by decide, rfl, by decide,
    (claim_C9_restore_readonly wFsP wStateP "p" "/dest").2.2.1 (by decide),
    (claim_C9_restore_readonly wFsP wStateP "p" "/dest").2.1.2⟩

/-- Witness fixture: a state whose persisted path fields disagree with the
standard layout for name "n" at storage path "r". -/
def wStEvil : State :=
  { name := "n", path := "bad", identifier := "stale", lockfile_path := "stalelock",
    manifest_path := "EVIL", tmp_manifest_path := "EVILTMP",
    items := [("k", "5")], preserved := [] }

/-- Witness fixture: a manifest decoder sending "M" to `wStEvil`. -/
def wMdecEvil : String → Option State := fun s => if s = "M" then some wStEvil else none

/-- Witness fixture: a filesystem holding only the manifest "M" for the
bundle "n" under storage path "r". -/
def wFsC5 : FS := fun q => if q = "r/n/.manifest" then some (FsNode.file "M") else none

/-- Witness fixture: the state returned by loading "n" from "r" over
`wFsC5` with fresh token "sid". -/
def wStRes : State :=
  { wStEvil with identifier := "sid", lockfile_path := "r/n/~rust_nonvolatile.lock" }

/-- Counterexample to C5: loading bundle "n" from storage path "r"
deserializes a manifest whose stored `manifest_path` is "EVIL"; the
returned state keeps "EVIL" — only `identifier` and `lockfile_path` are
overwritten — although the path recomputed from the storage path and name
would be "r/n/.manifest". -/
theorem claim_C5_counterexample :
    (State.load_from wMdecEvil [] id envOk wFsC5 "sid" "n" "r").2 = Except.ok wStRes ∧
    wStRes.manifest_path = "EVIL" ∧
    (("EVIL" : String) ≠ "r" ++ "/" ++ "n" ++ "/" ++ ".manifest") ∧
    wStRes.tmp_manifest_path = "EVILTMP" :=
  ⟨rfl, rfl, by decide, rfl⟩

/-- C5 (amended): on every successful load, the returned state's
`identifier` is the freshly generated token and its `lockfile_path` is
recomputed from the storage path and name; all other fields — `name`,
`path`, and in particular the `manifest_path` and `tmp_manifest_path`
fields — are taken verbatim from the deserialized manifest. -/
theorem claim_C5_load_from_fields (mdec : String → Option State) (procs : ProcTable)
    (interf : FS → FS) (env : IOEnv) (fs : FS) (sid name storage_path : String)
    (st' : State)
    (h : (State.load_from mdec procs interf env fs sid name storage_path).2 =
      Except.ok st') :
    st'.identifier = sid ∧
    st'.lockfile_path =
      storage_path ++ "/" ++ name ++ "/" ++ "~rust_nonvolatile.lock" ∧
    ∃ data st0,
      (acquire_dir procs interf env fs
          (storage_path ++ "/" ++ name ++ "/" ++ "~rust_nonvolatile.lock") sid).1
        (storage_path ++ "/" ++ name ++ "/" ++ ".manifest") = some (FsNode.file data) ∧
      mdec data = some st0 ∧
      st'.name = st0.name ∧ st'.path = st0.path ∧
      st'.manifest_path = st0.manifest_path ∧
      st'.tmp_manifest_path = st0.tmp_manifest_path ∧
      st'.items = st0.items ∧ st'.preserved = st0.preserved := by
  unfold State.load_from at h
  dsimp only at h
  cases ha : (acquire_dir procs interf env fs
      (storage_path ++ "/" ++ name ++ "/" ++ "~rust_nonvolatile.lock") sid).2 with
  | error e =>
    rw [ha] at h
    dsimp only at h
    cases h
  | ok u =>
    rw [ha] at h
    dsimp only at h
    cases hman : (acquire_dir procs interf env fs
        (storage_path ++ "/" ++ name ++ "/" ++ "~rust_nonvolatile.lock") sid).1
        (storage_path ++ "/" ++ name ++ "/" ++ ".manifest") with
    | none =>
      rw [hman] at h
      dsimp only at h
      cases h
    | some node =>
      rw [hman] at h
      cases node with
      | dir =>
        dsimp only at h
        cases h
      | file data =>
        dsimp only at h
        cases hdec : mdec data with
        | none =>
          rw [hdec] at h
          dsimp only at h
          cases h
        | some st0 =>
          rw [hdec] at h
          dsimp only at h
          injection h with h2
          subst h2
          exact ⟨rfl, rfl, data, st0, rfl, hdec, rfl, rfl, rfl, rfl, rfl, rfl⟩

/-- Witness for C5 (amended): the successful load of the counterexample
instance indeed carries the fresh identifier and the recomputed lock
path. -/
theorem claim_C5_load_from_fields_witness :
    (State.load_from wMdecEvil [] id envOk wFsC5 "sid" "n" "r").2 = Except.ok wStRes ∧
    wStRes.identifier = "sid" ∧
    wStRes.lockfile_path = "r" ++ "/" ++ "n" ++ "/" ++ "~rust_nonvolatile.lock" :=
  ⟨rfl,
    (claim_C5_load_from_fields wMdecEvil [] id envOk wFsC5 "sid" "n" "r" wStRes rfl).1,
    (claim_C5_load_from_fields wMdecEvil [] id envOk wFsC5 "sid" "n" "r" wStRes rfl).2.1⟩

theorem alContains_false_iff (l : AList) (k : String) :
    alContains l k = false ↔ ∀ q ∈ l, q.1 ≠ k := by
  simp [alContains, List.any_eq_false]

theorem mem_alInsert (l : AList) (k v : String) (q : String × String)
    (h : q ∈ alInsert l k v) : q = (k, v) ∨ q ∈ l := by
  rcases List.mem_cons.mp h with h | h
  · exact Or.inl h
  · exact Or.inr (List.mem_filter.mp h).1

theorem mem_alRemove (l : AList) (k : String) (q : String × String)
    (h : q ∈ alRemove l k) : q ∈ l :=
  (List.mem_filter.mp h).1

/-- Disjointness of the key sets of two association lists. -/
def disjointKeys (a b : AList) : Bool :=
  a.all (fun q => !(alContains b q.1))

theorem disjointKeys_iff (a b : AList) :
    disjointKeys a b = true ↔ ∀ q ∈ a, alContains b q.1 = false := by
  simp [disjointKeys, List.all_eq_true]

theorem alContains_alRemove_false (l : AList) (k x : String)
    (h : alContains l x = false) : alContains (alRemove l k) x = false := by
  rw [alContains_false_iff] at h ⊢
  exact fun q hq => h q (mem_alRemove l k q hq)

theorem set_state_eq (menc : State → String) (env : IOEnv) (fs : FS) (st : State)
    (var sval : String) :
    (State.set menc env fs st var sval).2.1 =
      (if alContains st.preserved var then st
       else { st with items := alInsert st.items var sval }) := by
  unfold State.set
  by_cases hc : alContains st.preserved var = true <;> simp [hc]

theorem delete_state_eq (menc : State → String) (env : IOEnv) (fs : FS) (st : State)
    (name : String) :
    (State.delete menc env fs st name).2.1 =
      { st with items := alRemove st.items name,
                preserved := alRemove st.preserved name } := by
  unfold State.delete
  dsimp only
  split
  · split
    · rfl
    · split
      · rfl
      · rfl
  · rfl

theorem preserveFinish_state (menc : State → String) (env : IOEnv) (fs1 : FS)
    (st : State) (cpath name : String) :
    (preserveFinish menc env fs1 st cpath name).2.1 =
      { st with preserved := alInsert st.preserved name cpath } := by
  unfold preserveFinish
  dsimp only
  split
  · rfl
  · split
    · rfl
    · rfl

theorem preserve_state_cases (menc : State → String) (canon : String → Option String)
    (env : IOEnv) (fs : FS) (st : State) (path name : String) :
    (State._preserve menc canon env fs st path name).2.1 = st ∨
    (alContains st.items name = false ∧
      ∃ cpath, (State._preserve menc canon env fs st path name).2.1 =
        { st with preserved := alInsert st.preserved name cpath }) := by
  unfold State._preserve
  by_cases hc : alContains st.items name = true
  · rw [if_pos hc]
    exact Or.inl rfl
  · rw [if_neg hc]
    rw [Bool.not_eq_true] at hc
    cases hcan : canon path with
    | none => exact Or.inl rfl
    | some cpath =>
      dsimp only
      cases hsrc : fs cpath with
      | none => exact Or.inl rfl
      | some node =>
        cases node with
        | dir =>
          cases hcp : env.copyOk with
          | false => exact Or.inl rfl
          | true =>
            rw [if_pos rfl]
            exact Or.inr ⟨hc, cpath, preserveFinish_state _ _ _ _ _ _⟩
        | file c =>
          cases hcp : env.copyOk with
          | false => exact Or.inl rfl
          | true =>
            rw [if_pos rfl]
            cases hcf : copyFileOp fs cpath (st.path ++ "/" ++ ("tmp_" ++ name)) with
            | error e => exact Or.inl rfl
            | ok fs1 => exact Or.inr ⟨hc, cpath, preserveFinish_state _ _ _ _ _ _⟩

theorem restore_state_unchanged (fs : FS) (st : State) (name : String) :
    (State._restore fs st name).2.1 = st := by
  unfold State._restore
  cases hg : alGet st.preserved name with
  | none => rfl
  | some p => exact restore_to_state_unchanged fs st name p

/-- The State-mutating facade operations, each carrying the IO environment
(and, for preserve, the canonicalization outcome) under which it runs. -/
inductive Op where
  | setOp (env : IOEnv) (k sv : String) : Op
  | deleteOp (env : IOEnv) (k : String) : Op
  | preserveOp (env : IOEnv) (canonResult : Option String) (src k : String) : Op
  | restoreOp (k : String) : Op
  | restoreToOp (k dst : String) : Op

/-- Run one facade operation, threading filesystem and state and
discarding the result code. -/
def runOp (menc : State → String) (p : FS × State) : Op → FS × State
  | Op.setOp env k sv =>
    let r := State.set menc env p.1 p.2 k sv
    (r.1, r.2.1)
  | Op.deleteOp env k =>
    let r := State.delete menc env p.1 p.2 k
    (r.1, r.2.1)
  | Op.preserveOp env canonResult src k =>
    let r := State._preserve menc (fun _ => canonResult) env p.1 p.2 src k
    (r.1, r.2.1)
  | Op.restoreOp k =>
    let r := State._restore p.1 p.2 k
    (r.1, r.2.1)
  | Op.restoreToOp k dst =>
    let r := State._restore_to p.1 p.2 k dst
    (r.1, r.2.1)

/-- Run a sequence of facade operations. -/
def runOps (menc : State → String) (p : FS × State) (ops : List Op) : FS × State :=
  ops.foldl (runOp menc) p

theorem runOp_disjoint (menc : State → String) (p : FS × State) (op : Op)
    (hd : disjointKeys p.2.items p.2.preserved = true) :
    disjointKeys (runOp menc p op).2.items (runOp menc p op).2.preserved = true := by
  cases op with
  | setOp env k sv =>
    simp only [runOp]
    rw [set_state_eq]
    by_cases hc : alContains p.2.preserved k = true
    · rw [if_pos hc]
      exact hd
    · rw [if_neg hc]
      rw [Bool.not_eq_true] at hc
      dsimp only
      rw [disjointKeys_iff]
      intro q hq
      rcases mem_alInsert _ _ _ _ hq with rfl | hq'
      · exact hc
      · exact (disjointKeys_iff _ _).mp hd q hq'
  | deleteOp env k =>
    simp only [runOp]
    rw [delete_state_eq]
    dsimp only
    rw [disjointKeys_iff]
    intro q hq
    exact alContains_alRemove_false _ _ _
      ((disjointKeys_iff _ _).mp hd q (mem_alRemove _ _ _ hq))
  | preserveOp env canonResult src k =>
    simp only [runOp]
    rcases preserve_state_cases menc (fun _ => canonResult) env p.1 p.2 src k with
      h | ⟨hc, cpath, h⟩
    · rw [h]
      exact hd
    · rw [h]
      dsimp only
      rw [disjointKeys_iff]
      intro q hq
      have h1 : alContains p.2.preserved q.1 = false := (disjointKeys_iff _ _).mp hd q hq
      have h2 : q.1 ≠ k := (alContains_false_iff _ _).mp hc q hq
      rw [alContains_false_iff]
      intro q' hq'
      rcases mem_alInsert _ _ _ _ hq' with rfl | hq''
      · exact Ne.symm h2
      · exact (alContains_false_iff _ _).mp h1 q' hq''
  | restoreOp k =>
    simp only [runOp]
    rw [restore_state_unchanged]
    exact hd
  | restoreToOp k dst =>
    simp only [runOp]
    rw [restore_to_state_unchanged]
    exact hd

theorem runOps_disjoint (menc : State → String) (ops : List Op) :
    ∀ p : FS × State, disjointKeys p.2.items p.2.preserved = true →
      disjointKeys (runOps menc p ops).2.items (runOps menc p ops).2.preserved = true := by
  induction ops with
  | nil => exact fun p h => h
  | cons op t ih => exact fun p h => ih (runOp menc p op) (runOp_disjoint menc p op h)

/-- C8: starting from a freshly created bundle (both maps empty), after any
sequence of facade operations (set, delete, preserve, restore, restore_to)
the key sets of `items` and `preserved` are disjoint: set refuses keys in
`preserved`, preserve refuses keys in `items`, delete removes from both,
restores mutate neither. -/
theorem claim_C8_disjoint_invariant (menc : State → String) (ops : List Op) (fs : FS)
    (st : State) (hi : st.items = []) (_hp : st.preserved = []) :
    disjointKeys (runOps menc (fs, st) ops).2.items
      (runOps menc (fs, st) ops).2.preserved = true := by
  refine runOps_disjoint menc ops (fs, st) ?_
  rw [hi]
  rfl

/-- Witness fixture: a filesystem with a single source file "/c" to
preserve. -/
def wFsC8 : FS := fun q => if q = "/c" then some (FsNode.file "X") else none

/-- Witness fixture: a mixed operation sequence. -/
def wOps : List Op :=
  [Op.setOp envOk "a" "1", Op.preserveOp envOk (some "/c") "/c" "b",
   Op.setOp envOk "b" "2", Op.deleteOp envOk "a", Op.restoreToOp "b" "/d"]

/-- Witness for C8: running the mixed sequence from the fresh bundle keeps
the key sets disjoint. -/
theorem claim_C8_disjoint_invariant_witness :
    wState.items = [] ∧ wState.preserved = [] ∧
    disjointKeys (runOps wMenc (wFsC8, wState) wOps).2.items
      (runOps wMenc (wFsC8, wState) wOps).2.preserved = true :=
  ⟨rfl, rfl, claim_C8_disjoint_invariant wMenc wOps wFsC8 wState rfl rfl⟩

theorem removeFileQuiet_other (fs : FS) {p q : String} (h : q ≠ p) :
    removeFileQuiet fs p q = fs q := by
  unfold removeFileQuiet
  cases hf : fs p with
  | none => rfl
  | some node =>
    cases node with
    | file c => exact FS.update_other _ _ h
    | dir => rfl

theorem append_right_ne (s : String) {a b : String} (h : a ≠ b) : s ++ a ≠ s ++ b := by
  intro he
  apply h
  have hd := congrArg String.data he
  rw [String.data_append, String.data_append] at hd
  exact String.ext (List.append_cancel_left hd)

theorem acquire_dir_fresh (procs : ProcTable) (env : IOEnv) (fs : FS) (lp sid : String)
    (hnone : fs lp = none) (hw : env.lockWriteOk = true) :
    acquire_dir procs id env fs lp sid =
      (fs.update lp (some (FsNode.file sid)), Except.ok ()) := by
  have hga : get_lock_acquired procs fs lp sid = Except.ok false := by
    unfold get_lock_acquired
    rw [hnone]
  have hrfq : removeFileQuiet fs lp = fs := by
    unfold removeFileQuiet
    rw [hnone]
  have hopen : openWriteCreate fs lp = Except.ok (fs.update lp (some (FsNode.file ""))) := by
    unfold openWriteCreate
    rw [hnone]
  have hga2 : get_lock_acquired procs (fs.update lp (some (FsNode.file sid))) lp sid =
      Except.ok true := by
    unfold get_lock_acquired
    rw [FS.update_self]
    dsimp only
    rw [match_state_id_self]
  unfold acquire_dir
  rw [hga]
  dsimp only
  rw [hrfq, hopen]
  dsimp only
  rw [if_pos hw, FS.update_update_self]
  dsimp only [id]
  rw [hga2]

theorem load_from_reads (mdec : String → Option State) (procs : ProcTable) (env : IOEnv)
    (fs2 : FS) (sid2 name root d : String) (st0 : State)
    (hw : env.lockWriteOk = true)
    (hlockNone : fs2 (root ++ "/" ++ name ++ "/" ++ "~rust_nonvolatile.lock") = none)
    (hmanFile : fs2 (root ++ "/" ++ name ++ "/" ++ ".manifest") = some (FsNode.file d))
    (hdec2 : mdec d = some st0) :
    (State.load_from mdec procs id env fs2 sid2 name root).2 =
      Except.ok
        { st0 with
          identifier := sid2,
          lockfile_path := root ++ "/" ++ name ++ "/" ++ "~rust_nonvolatile.lock" } := by
  have hne : root ++ "/" ++ name ++ "/" ++ ".manifest" ≠
      root ++ "/" ++ name ++ "/" ++ "~rust_nonvolatile.lock" :=
    append_right_ne (root ++ "/" ++ name ++ "/") (by decide)
  unfold State.load_from
  dsimp only
  rw [acquire_dir_fresh procs env fs2 _ sid2 hlockNone hw]
  dsimp only
  rw [FS.update_other _ _ hne, hmanFile]
  dsimp only
  rw [hdec2]

/-- C7: a successful `set(k, v)` followed by `get(k)` on the same instance
returns `some v` (when the requested type decodes the stored encoding),
and so does `get(k)` on an instance freshly reloaded from the same
manifest: after dropping the first instance (releasing its lock),
`load_from` under the same storage path and name succeeds and returns the
updated items map with a fresh identifier, on which `get(k)` again yields
`some v`. -/
theorem claim_C7_set_get_roundtrip {T : Type} (dec : String → Option T) (v : T)
    (menc : State → String) (mdec : String → Option State) (procs : ProcTable)
    (env : IOEnv) (fs : FS) (st : State) (k sv sid2 name root : String)
    (hdec : dec sv = some v)
    (hpres : alContains st.preserved k = false)
    (henv1 : env.tmpWriteOk = true) (henv2 : env.renameOk = true)
    (henv3 : env.lockWriteOk = true)
    (hpath : st.path = root ++ "/" ++ name)
    (hman : st.manifest_path = st.path ++ "/" ++ ".manifest")
    (hlock : st.lockfile_path = st.path ++ "/" ++ "~rust_nonvolatile.lock")
    (hd1 : st.tmp_manifest_path ≠ st.manifest_path)
    (hd2 : st.lockfile_path ≠ st.manifest_path)
    (hd3 : st.lockfile_path ≠ st.tmp_manifest_path)
    (hftmp : fs st.tmp_manifest_path = none)
    (hfman : fs st.manifest_path ≠ some FsNode.dir)
    (hflock : fs st.lockfile_path ≠ some FsNode.dir)
    (hmdec : mdec (menc { st with items := alInsert st.items k sv }) =
      some { st with items := alInsert st.items k sv }) :
    (State.set menc env fs st k sv).2.2 = Except.ok () ∧
    State.get dec (State.set menc env fs st k sv).2.1 k = some v ∧
    (State.load_from mdec procs id env
        (State.dropLock (State.set menc env fs st k sv).1
          (State.set menc env fs st k sv).2.1) sid2 name root).2 =
      Except.ok { st with items := alInsert st.items k sv, identifier := sid2 } ∧
    State.get dec { st with items := alInsert st.items k sv, identifier := sid2 } k =
      some v := by
  have htd : fs ({ st with items := alInsert st.items k sv } : State).tmp_manifest_path ≠
      some FsNode.dir := by
    show fs st.tmp_manifest_path ≠ some FsNode.dir
    rw [hftmp]
    intro h
    cases h
  have h_wm := write_manifest_ok menc env fs { st with items := alInsert st.items k sv }
    henv1 henv2 hd1 htd hfman
  have hset : State.set menc env fs st k sv =
      ((State.write_manifest menc env fs { st with items := alInsert st.items k sv }).1,
        { st with items := alInsert st.items k sv },
        (State.write_manifest menc env fs { st with items := alInsert st.items k sv }).2) := by
    unfold State.set
    rw [hpres]
    rfl
  have htc : tmpContent menc fs { st with items := alInsert st.items k sv } =
      menc { st with items := alInsert st.items k sv } := by
    unfold tmpContent
    dsimp only
    rw [hftmp]
  have hF1lock : ((fs.update st.tmp_manifest_path none).update st.manifest_path
      (some (FsNode.file (tmpContent menc fs { st with items := alInsert st.items k sv }))))
      st.lockfile_path = fs st.lockfile_path := by
    rw [FS.update_other _ _ hd2, FS.update_other _ _ hd3]
  have hlockC : st.lockfile_path = root ++ "/" ++ name ++ "/" ++ "~rust_nonvolatile.lock" := by
    rw [hlock, hpath]
  have hmanC : st.manifest_path = root ++ "/" ++ name ++ "/" ++ ".manifest" := by
    rw [hman, hpath]
  have hfs2lock : State.dropLock
      ((fs.update st.tmp_manifest_path none).update st.manifest_path
        (some (FsNode.file (tmpContent menc fs { st with items := alInsert st.items k sv }))))
      { st with items := alInsert st.items k sv }
      (root ++ "/" ++ name ++ "/" ++ "~rust_nonvolatile.lock") = none := by
    rw [← hlockC]
    exact removeFileQuiet_self _ _ (by rw [hF1lock]; exact hflock)
  have hfs2man : State.dropLock
      ((fs.update st.tmp_manifest_path none).update st.manifest_path
        (some (FsNode.file (tmpContent menc fs { st with items := alInsert st.items k sv }))))
      { st with items := alInsert st.items k sv }
      (root ++ "/" ++ name ++ "/" ++ ".manifest") =
      some (FsNode.file (menc { st with items := alInsert st.items k sv })) := by
    rw [← hmanC]
    show removeFileQuiet _ st.lockfile_path st.manifest_path = _
    rw [removeFileQuiet_other _ (Ne.symm hd2), FS.update_self, htc]
  have hload := load_from_reads mdec procs env
    (State.dropLock
      ((fs.update st.tmp_manifest_path none).update st.manifest_path
        (some (FsNode.file (tmpContent menc fs { st with items := alInsert st.items k sv }))))
      { st with items := alInsert st.items k sv })
    sid2 name root (menc { st with items := alInsert st.items k sv })
    { st with items := alInsert st.items k sv } henv3 hfs2lock hfs2man hmdec
  refine ⟨?_, ?_, ?_, ?_⟩
  · rw [hset]
    dsimp only
    rw [h_wm]
  · rw [hset]
    dsimp only
    show State.get dec { st with items := alInsert st.items k sv } k = some v
    unfold State.get
    rw [alGet_insert_self]
    exact hdec
  · rw [hset]
    dsimp only
    rw [h_wm]
    dsimp only
    refine Eq.trans hload ?_
    rw [← hlockC]
  · unfold State.get
    show (match alGet (alInsert st.items k sv) k with
      | none => none
      | some item => dec item) = some v
    rw [alGet_insert_self]
    exact hdec

/-- Witness fixture: the state after setting "k" to "7" on `wState`. -/
def wSt7 : State := { wState with items := alInsert wState.items "k" "7" }

/-- Witness fixture: `wSt7` as reloaded with the fresh identifier. -/
def wSt7b : State := { wSt7 with identifier := "sid2" }

/-- Witness fixture: a manifest decoder matching `wMenc` on `wSt7`. -/
def wMdec7 : String → Option State := fun s => if s = "Y" then some wSt7 else none

/-- Witness for C7: setting "k" to the encoded 7 on a fresh bundle, then
reading it back directly and through a reload, yields 7 both times. -/
theorem claim_C7_set_get_roundtrip_witness :
    parseU32 "7" = some 7 ∧
    alContains wState.preserved "k" = false ∧
    wMdec7 (wMenc wSt7) = some wSt7 ∧
    State.get parseU32 (State.set wMenc envOk fsEmpty wState "k" "7").2.1 "k" = some 7 ∧
    (State.load_from wMdec7 [] id envOk
        (State.dropLock (State.set wMenc envOk fsEmpty wState "k" "7").1
          (State.set wMenc envOk fsEmpty wState "k" "7").2.1) "sid2" "n" "r").2 =
      Except.ok wSt7b ∧
    State.get parseU32 wSt7b "k" = some 7 :=
  ⟨by decide, rfl, by decide,
    (claim_C7_set_get_roundtrip parseU32 7 wMenc wMdec7 [] envOk fsEmpty wState
      "k" "7" "sid2" "n" "r" (by decide) rfl rfl rfl rfl (by decide) (by decide)
      (by decide) (by decide) (by decide) (by decide) rfl (by decide) (by decide)
      (by decide)).2.1,
    (claim_C7_set_get_roundtrip parseU32 7 wMenc wMdec7 [] envOk fsEmpty wState
      "k" "7" "sid2" "n" "r" (by decide) rfl rfl rfl rfl (by decide) (by decide)
      (by decide) (by decide) (by decide) (by decide) rfl (by decide) (by decide)
      (by decide)).2.2.1,
    (claim_C7_set_get_roundtrip parseU32 7 wMenc wMdec7 [] envOk fsEmpty wState
      "k" "7" "sid2" "n" "r" (by decide) rfl rfl rfl rfl (by decide) (by decide)
      (by decide) (by decide) (by decide) (by decide) rfl (by decide) (by decide)
      (by decide)).2.2.2⟩

/-- Witness for C2: a stored token "42\n7\n/bin/x" with a live process
`(42, "/bin/x")` is owned by another process. -/
theorem claim_C2_match_state_id_witness :
    ("a" : String) ≠ "42\n7\n/bin/x" ∧
    splitNl "42\n7\n/bin/x" = ["42", "7", "/bin/x"] ∧
    parseU32 "42" = some 42 ∧
    match_state_id [((42 : Int), "/bin/x")] "a" "42\n7\n/bin/x" = WhoOwns.Other :=
  ⟨by decide, by decide, by decide,
    (((claim_C2_match_state_id [((42 : Int), "/bin/x")] "a" "42\n7\n/bin/x").2.2
      (by decide) "42" "7" "/bin/x" (by decide)).2 42 (by decide)).1
      ⟨((42 : Int), "/bin/x"), by decide, by decide, by decide⟩⟩

end Nonvolatile
